import Mathlib

/-
  Verification development for the redis-playground repository.

  Two subsystems are embedded shallowly:
  * Autocomplete (src/autocomplete/autocomplete.ts): a dictionary kept as a
    Redis sorted set in which every member has score 0, so the set is ordered
    purely lexicographically by member.  JS strings are modelled as lists of
    UTF-16 code units (List Nat); Redis member comparison (memcmp) agrees with
    code-unit comparison on the ASCII data this program stores.
  * Article service (articleService.ts): Redis hashes, sorted sets and sets
    are modelled as association lists.  Redis stores every value as a string;
    the model identifies a stored decimal string with the integer it denotes,
    which is exact for every value this program reads or writes.
-/

namespace RedisPlayground

namespace Autocomplete

/-- Lexicographic strict order on code-unit lists, the order JS uses for
string comparison and Redis uses (memcmp) for same-score sorted-set members. -/
def ltb : List Nat → List Nat → Bool
  | _, [] => false
  | [], _ :: _ => true
  | a :: as, b :: bs => if a < b then true else if b < a then false else ltb as bs

/-- First (p.length) code units of w equal p, i.e. w starts with p. -/
def hasPref : List Nat → List Nat → Bool
  | [], _ => true
  | _ :: _, [] => false
  | a :: as, b :: bs => a == b && hasPref as bs

/-- Every code unit is a lowercase ASCII letter (97 to 122). -/
def lc (w : List Nat) : Bool := w.all (fun c => decide (97 ≤ c) && decide (c ≤ 122))

/-- Model of getPrefix (autocomplete.ts lines 57-64): lastCh is the final code
unit, withoutLastCh the rest; the lower bound is withoutLastCh plus the
predecessor of lastCh plus the end marker 123 (one past z, code 122), the
upper bound is the word plus the end marker.  The source never calls this on
an empty word (the CLI passes the query word); getD 0 covers the dead case. -/
def getPrefix (word : List Nat) : List Nat × List Nat :=
  let lastCh := word.getLast?.getD 0
  let withoutLastCh := word.dropLast
  (withoutLastCh ++ [lastCh - 1, 123], word ++ [123])

/-- ZADD with score 0 into the lexicographically sorted member list: inserts
the member at its ordered position, or leaves the set unchanged when the
member is already present (ZADD of an existing member only updates its score,
and all scores here are 0). -/
def winsert (w : List Nat) : List (List Nat) → List (List Nat)
  | [] => [w]
  | x :: t => if ltb w x then w :: x :: t else if w = x then x :: t else x :: winsert w t

/-- ZREM: removes the member from the set. -/
def wremove (w : List Nat) (l : List (List Nat)) : List (List Nat) :=
  l.filter (fun x => x != w)

/-- ZRANK: 0-based position of the member in ascending order, none if absent. -/
def wrank : List (List Nat) → List Nat → Option Nat
  | [], _ => none
  | x :: t, w => if x = w then some 0 else (wrank t w).map (· + 1)

/-- ZRANGE by rank with Redis index semantics: a negative index counts from
the end (-1 is the last element); after that adjustment the slice is the
inclusive range from start to stop, empty when start exceeds stop and clamped
to the list. -/
def zrangeSlice (l : List (List Nat)) (start stop : Int) : List (List Nat) :=
  let n : Int := l.length
  let s : Int := if start < 0 then max (n + start) 0 else start
  let e : Int := if stop < 0 then n + stop else stop
  if s > e then [] else (l.take (e.toNat + 1)).drop s.toNat

/-- Model of getSimilarWords (autocomplete.ts lines 66-89).  The steps follow
the source line by line: read the cardinality, insert the two uuid-tagged
sentinel bounds, resolve both ranks, on a failed rank lookup throw (the two
ZREM calls on lines 84-85 are after the throw, so they do not run on that
path), otherwise clamp the end rank by Math.min(endIdx, wordsLen,
startIdx + 100) minus 2, remove the sentinels and fetch the rank range.
The interfere argument is applied to the store between the sentinel
insertions and the rank lookups: it models a concurrent store mutation at
that await boundary (the interleaving the spec allows in its concurrency
model, e.g. a misbehaving caller removing a sentinel).  A run with no
concurrent activity is interfere = id, wrapped below as getSimilarWords.
The result pairs the thrown-or-returned value with the final store state. -/
def getSimilarWordsI (words : List (List Nat)) (target uuid : List Nat)
    (interfere : List (List Nat) → List (List Nat)) :
    Except Unit (List (List Nat)) × List (List Nat) :=
  let p := getPrefix target
  let start := p.1 ++ uuid
  let endB := p.2 ++ uuid
  let wordsLen := words.length
  let s1 := winsert start words
  let s2 := winsert endB s1
  let s3 := interfere s2
  match wrank s3 start, wrank s3 endB with
  | some startIdx, some endIdx0 =>
      let endIdx : Int := min (min (endIdx0 : Int) (wordsLen : Int)) ((startIdx : Int) + 100) - 2
      let s4 := wremove start s3
      let s5 := wremove endB s4
      (Except.ok (zrangeSlice s5 (startIdx : Int) endIdx), s5)
  | _, _ => (Except.error (), s3)

/-- A sequential run of getSimilarWords: no concurrent store activity. -/
def getSimilarWords (words : List (List Nat)) (target uuid : List Nat) :
    Except Unit (List (List Nat)) × List (List Nat) :=
  getSimilarWordsI words target uuid id

/-- A dictionary of 101 distinct lowercase words, each starting with a
(code 97), listed in ascending lexicographic order. -/
def dict101 : List (List Nat) := (List.range 101).map (fun i => [97, 97 + i / 26, 97 + i % 26])

end Autocomplete

namespace Articles

/-- Points added to the score per vote (articleService.ts line 24). -/
def SCORE_PER_VOTE : Int := 432

/-- Seconds in the voting window (articleService.ts line 25).  Note that this
constant is exported but never read by postVote. -/
def VOTING_WINDOW : Int := 5

/-- Decoded shape of an article hash under articleSchema (zod): id, title,
userId, link as strings, votes and timestamp as integers. -/
structure Article where
  id : String
  title : String
  userId : String
  link : String
  votes : Int
  timestamp : Int
deriving DecidableEq

/-- Raw article hash as stored by HSET/HINCRBY.  postArticle writes the five
fields id, title, link, userId, timestamp and no votes field; votes = none
models the absent field, some v the stored decimal string for v (every write
to the field goes through HINCRBY, so the stored string is always an exact
decimal integer). -/
structure ArticleHash where
  id : String
  title : String
  link : String
  userId : String
  timestamp : Int
  votes : Option Int
deriving DecidableEq

/-- Store state touched by the article service: the article id counter
(INCR key article:), the per-article hashes keyed by id, the article:score
and article:created sorted sets, and the article:voted dedup sets. -/
structure ArticleStore where
  counter : Nat
  hashes : List (String × ArticleHash)
  scoreZ : List (String × Int)
  createdZ : List (String × Int)
  voted : List (String × List String)
deriving DecidableEq

def emptyStore : ArticleStore := ⟨0, [], [], [], []⟩

/-- Association-list lookup keyed by string. -/
def alookup {α : Type} : List (String × α) → String → Option α
  | [], _ => none
  | (k0, v) :: t, k => if k0 = k then some v else alookup t k

/-- Association-list upsert: replaces the value at the key, computed from the
present value, or appends the key when absent (HSET on a key, ZADD of a
member, ZINCRBY of a member, SADD into a key-addressed set all have this
create-or-update shape). -/
def aupd {α : Type} : List (String × α) → String → (Option α → α) → List (String × α)
  | [], k, f => [(k, f none)]
  | (k0, v) :: t, k, f => if k0 = k then (k0, f (some v)) :: t else (k0, v) :: aupd t k f

/-- HINCRBY article:id votes 1 on the hashes map: an absent votes field counts
as 0 (Redis semantics), so the field becomes some 1 on first increment.
HINCRBY on a wholly missing key would create a hash holding only the votes
field; such a hash can never decode as an article and no code path of this
repository reaches it (postVote is only invoked with ids returned by
postArticle), so the model leaves the map unchanged in that case. -/
def hIncrVotes : List (String × ArticleHash) → String → List (String × ArticleHash)
  | [], _ => []
  | (k, h) :: t, aid =>
      if k = aid then (k, { h with votes := some (h.votes.getD 0 + 1) }) :: t
      else (k, h) :: hIncrVotes t aid

/-- SADD: appends the member when absent, no-op when present. -/
def sAdd (l : List String) (u : String) : List String := if u ∈ l then l else l ++ [u]

/-- Model of postArticle (articleService.ts lines 35-60): INCR the id counter,
HSET the hash with fields id, title, link, userId, timestamp (no votes
field), ZADD article:created and article:score with the timestamp as score,
return the new id.  The wall clock read on line 42 is the now argument. -/
def postArticle (s : ArticleStore) (title link userId : String) (now : Int) :
    String × ArticleStore :=
  let n := s.counter + 1
  let id := toString n
  (id,
   { counter := n
     hashes := aupd s.hashes id (fun _ => ⟨id, title, link, userId, now, none⟩)
     scoreZ := aupd s.scoreZ id (fun _ => now)
     createdZ := aupd s.createdZ id (fun _ => now)
     voted := s.voted })

/-- Model of postVote (articleService.ts lines 62-70): SADD the voter into the
article voted set, ZINCRBY article:score by 432, HINCRBY the votes field by 1.
All three steps are unconditional: the SADD result is discarded, no membership
test and no voting-window check occur, and the function reads no clock. -/
def postVote (s : ArticleStore) (articleId userId : String) : ArticleStore :=
  { s with
    voted := aupd s.voted articleId (fun o => sAdd (o.getD []) userId)
    scoreZ := aupd s.scoreZ articleId (fun o => o.getD 0 + 432)
    hashes := hIncrVotes s.hashes articleId }

/-- Model of updateArticleGroups (articleService.ts lines 72-80): the body is
a placeholder that performs no store operation and returns false. -/
def updateArticleGroups (s : ArticleStore) (articleId : String)
    (addToGroups removeFromGroups : List String) : Bool × ArticleStore :=
  (false, s)

/-- Decoding boundary of articleSchema (articleService.ts lines 5-15): the
votes field is nullish-tolerated and transformed by x ? parseInt(x) : 0, so
an absent (or null or empty) votes field decodes to 0 and a stored decimal
decodes to its value; timestamp is parsed from its decimal string. -/
def toArticle (h : ArticleHash) : Article :=
  { id := h.id, title := h.title, userId := h.userId, link := h.link,
    votes := h.votes.getD 0, timestamp := h.timestamp }

/-- Ascending sorted-set order: by score, ties by member string ascending,
the order Redis maintains. -/
def zLtb (a b : String × Int) : Bool := decide (a.2 < b.2) || (a.2 == b.2 && decide (a.1 < b.1))

def zinsert (a : String × Int) : List (String × Int) → List (String × Int)
  | [] => [a]
  | x :: t => if zLtb a x then a :: x :: t else x :: zinsert a t

def zsort (l : List (String × Int)) : List (String × Int) := l.foldr zinsert []

/-- ZRANGE key start stop REV: members of the descending-order view from index
start to index stop inclusive. -/
def zRangeRev (z : List (String × Int)) (start stop : Nat) : List String :=
  (((zsort z).reverse.drop start).take (stop + 1 - start)).map (fun e => e.1)

/-- Model of getTopArticles (articleService.ts lines 82-100): fetch the ids at
descending ranks 0 to 100 of article:score via ZRANGE with REV, HGETALL each
hash, decode through articleSchema.  HGETALL of a missing key yields an empty
record, which articleSchema rejects (zod throws): the run fails, modelled as
none.  The count and group parameters are accepted and never read. -/
def getTopArticles (s : ArticleStore) (count : Nat) (group : Option String) :
    Option (List Article) :=
  (zRangeRev s.scoreZ 0 100).mapM (fun i => (alookup s.hashes i).map toArticle)

/-- Stated from the claim for comparison with getTopArticles: the articles at
ranks 0 through 100 of the global score index in descending score order. -/
def topArticlesRanks0To100 (s : ArticleStore) : Option (List Article) :=
  (((zsort s.scoreZ).reverse.take 101).map (fun e => e.1)).mapM
    (fun i => (alookup s.hashes i).map toArticle)

/-- Stored score of an article equals its stored timestamp plus its decoded
vote count times SCORE_PER_VOTE. -/
def scoreOk (s : ArticleStore) (aid : String) : Bool :=
  match alookup s.hashes aid, alookup s.scoreZ aid with
  | some h, some sc => sc == h.timestamp + h.votes.getD 0 * SCORE_PER_VOTE
  | _, _ => false

end Articles

end RedisPlayground

namespace RedisPlayground

namespace Autocomplete

theorem ltb_nil_right (x : List Nat) : ltb x [] = false := by cases x <;> rfl

theorem lc_iff (w : List Nat) : lc w = true ↔ ∀ c ∈ w, 97 ≤ c ∧ c ≤ 122 := by
  simp [lc, List.all_eq_true]

theorem ltb_last (rest : List Nat) (h : ∀ c ∈ rest, 97 ≤ c ∧ c ≤ 122) :
    ltb rest [123] = true := by
  cases rest with
  | nil => rfl
  | cons d ds =>
      have hd := h d (List.mem_cons_self d ds)
      simp [ltb, show d < 123 by omega]

theorem ltb_hi (rest : List Nat) (h : ∀ c ∈ rest, 97 ≤ c ∧ c ≤ 122) :
    ltb [123] rest = false := by
  cases rest with
  | nil => rfl
  | cons d ds =>
      have hd := h d (List.mem_cons_self d ds)
      simp [ltb, show ¬ (123 < d) by omega, show d < 123 by omega]

/-- Core bound lemma: for a query word stem ++ [last] with last a lowercase
code, and any word w of lowercase codes, w starts with the query word exactly
when w lies strictly between stem ++ [last - 1, 123] and stem ++ [last, 123]
in lexicographic order. -/
theorem bounds_key (last : Nat) (hl : 97 ≤ last) :
    ∀ (stem w : List Nat), (∀ c ∈ w, 97 ≤ c ∧ c ≤ 122) →
      hasPref (stem ++ [last]) w
        = (ltb (stem ++ [last - 1, 123]) w && ltb w (stem ++ [last, 123])) := by
  intro stem
  induction stem with
  | nil =>
      intro w hw
      cases w with
      | nil => simp [hasPref, ltb]
      | cons c rest =>
          have hrest : ∀ x ∈ rest, 97 ≤ x ∧ x ≤ 122 :=
            fun x hx => hw x (List.mem_cons_of_mem c hx)
          simp only [List.nil_append]
          rcases Nat.lt_trichotomy c last with h | h | h
          · have e1 : (last == c) = false := by simp [show last ≠ c by omega]
            simp [hasPref, ltb, e1, show ¬ (last - 1 < c) by omega, ltb_hi rest hrest]
          · subst h
            simp [hasPref, ltb, Nat.lt_irrefl, show c - 1 < c by omega, ltb_last rest hrest]
          · have e1 : (last == c) = false := by simp [show last ≠ c by omega]
            simp [hasPref, ltb, e1, show ¬ (c < last) by omega, h, Bool.and_false]
  | cons x xs ih =>
      intro w hw
      cases w with
      | nil => simp [hasPref, ltb, List.cons_append, ltb_nil_right]
      | cons c rest =>
          have hrest : ∀ y ∈ rest, 97 ≤ y ∧ y ≤ 122 :=
            fun y hy => hw y (List.mem_cons_of_mem c hy)
          simp only [List.cons_append]
          rcases Nat.lt_trichotomy c x with h | h | h
          · have e1 : (x == c) = false := by simp [show x ≠ c by omega]
            simp [hasPref, ltb, e1, show ¬ (x < c) by omega, h]
          · subst h
            simp [hasPref, ltb, Nat.lt_irrefl, ih rest hrest]
          · have e1 : (x == c) = false := by simp [show x ≠ c by omega]
            simp [hasPref, ltb, e1, show ¬ (c < x) by omega, h, Bool.and_false]

/-- Claim C7: for every non-empty lowercase query p, the pair computed by
getPrefix (lowerBound = stem plus the predecessor of the last code plus the
end marker 123, upperBound = p plus the end marker) brackets exactly the
words starting with p: a lowercase word w starts with p exactly when
lowerBound sorts strictly before w and w strictly before upperBound. -/
theorem c7_bound_pair_characterizes (p w : List Nat)
    (hne : p ≠ []) (hp : lc p = true) (hw : lc w = true) :
    hasPref p w = true ↔ (ltb (getPrefix p).1 w = true ∧ ltb w (getPrefix p).2 = true) := by
  obtain ⟨stem, last, rfl⟩ : ∃ stem last, p = stem ++ [last] :=
    ⟨p.dropLast, p.getLast hne, (List.dropLast_append_getLast hne).symm⟩
  have hlast : 97 ≤ last := ((lc_iff _).mp hp last (by simp)).1
  have key := bounds_key last hlast stem w ((lc_iff _).mp hw)
  have h1 : (getPrefix (stem ++ [last])).1 = stem ++ [last - 1, 123] := by
    simp [getPrefix]
  have h2 : (getPrefix (stem ++ [last])).2 = stem ++ [last, 123] := by
    simp [getPrefix]
  rw [h1, h2, key, Bool.and_eq_true]

/-- Closed instance of C7 at the spec example: the word cats starts with the
query cat, as characterized through the getPrefix bounds. -/
theorem c7_bound_pair_witness :
    hasPref [99, 97, 116] [99, 97, 116, 115] = true :=
  (c7_bound_pair_characterizes [99, 97, 116] [99, 97, 116, 115]
    (by decide) (by decide) (by decide)).mpr (by decide)

/-- Claim C1 is false of the code on boundary dictionaries, although the
spec example holds.  With uuid token "0" (code 48): the query cat over
{cap, car, cat, cats, dog} does return [cat, cats]; but over {apple, cat}
the same query returns [], dropping the exact match cat, and over {dog} it
returns [dog], a word that does not start with cat.  Both failures come from
endIdx = Math.min(endIdx, wordsLen, startIdx + 100) - 2: the wordsLen clamp
loses the last match whenever no dictionary word sorts after the matches,
and when the clamped value reaches -1 the ZRANGE call turns it into a
from-the-end index selecting the whole set. -/
theorem c1_similar_words_wrong_on_boundary :
    (getSimilarWords
        [[99,97,112],[99,97,114],[99,97,116],[99,97,116,115],[100,111,103]]
        [99,97,116] [48]).1 = Except.ok [[99,97,116],[99,97,116,115]]
  ∧ (getSimilarWords [[97,112,112,108,101],[99,97,116]] [99,97,116] [48]).1 = Except.ok []
  ∧ (getSimilarWords [[100,111,103]] [99,97,116] [48]).1 = Except.ok [[100,111,103]]
  ∧ hasPref [99,97,116] [99,97,116] = true
  ∧ hasPref [99,97,116] [100,111,103] = false :=
  ⟨rfl, rfl, rfl, rfl, rfl⟩

/-- Claim C2 is false of the code: the throw on a failed rank lookup
(autocomplete.ts line 79) happens before the two ZREM calls (lines 84-85),
so on that exit path no sentinel is removed.  Concretely, querying cat over
the one-word dictionary {dog} while a concurrent store action removes the
lower sentinel [99,97,115,123,48] between the inserts and the rank lookups:
the operation throws, and the final ordered index still holds the upper
sentinel [99,97,116,123,48], cardinality 2 against a real word count of 1. -/
theorem c2_sentinel_leak_on_rank_failure :
    (getSimilarWordsI [[100,111,103]] [99,97,116] [48]
        (fun s => wremove [99,97,115,123,48] s)).1 = Except.error ()
  ∧ (getSimilarWordsI [[100,111,103]] [99,97,116] [48]
        (fun s => wremove [99,97,115,123,48] s)).2 = [[99,97,116,123,48],[100,111,103]]
  ∧ (getSimilarWordsI [[100,111,103]] [99,97,116] [48]
        (fun s => wremove [99,97,115,123,48] s)).2.length = 2 :=
  ⟨rfl, rfl, rfl⟩

/-- Claim C6 is false of the code: over dict101, a dictionary in which 101
words share the one-letter query (code 97), the query returns the 99
lexicographically smallest matches, not 100.  The cap comes from
Math.min(endIdx, wordsLen, startIdx + 100) - 2, which bounds the inclusive
slice end at startIdx + 98, a slice of 99 members. -/
theorem c6_cap_returns_99_not_100 :
    (getSimilarWords dict101 [97] [48]).1 = Except.ok (dict101.take 99)
  ∧ dict101.length = 101
  ∧ (dict101.take 99).length = 99
  ∧ dict101.all (fun w => hasPref [97] w) = true := by
  set_option maxRecDepth 20000 in
  exact ⟨rfl, rfl, rfl, rfl⟩

end Autocomplete

namespace Articles

theorem alookup_aupd {α : Type} (l : List (String × α)) (k : String) (f : Option α → α) :
    alookup (aupd l k f) k = some (f (alookup l k)) := by
  induction l with
  | nil => simp [aupd, alookup]
  | cons hd t ih =>
      obtain ⟨k0, v⟩ := hd
      by_cases h : k0 = k <;> simp [aupd, alookup, h, ih]

theorem alookup_hIncrVotes (l : List (String × ArticleHash)) (aid : String) :
    alookup (hIncrVotes l aid) aid
      = (alookup l aid).map (fun h => { h with votes := some (h.votes.getD 0 + 1) }) := by
  induction l with
  | nil => simp [hIncrVotes, alookup]
  | cons hd t ih =>
      obtain ⟨k, h⟩ := hd
      by_cases hk : k = aid <;> simp [hIncrVotes, alookup, hk, ih]

/-- Claim C3: for every article, immediately after creation (postArticle) and
after each applied vote (postVote), the stored score in article:score equals
the stored timestamp plus the decoded vote count times SCORE_PER_VOTE (432).
postArticle establishes the invariant (score = timestamp, no votes field) and
postVote preserves it (score and vote count move together, by 432 and by 1). -/
theorem c3_score_invariant :
    (∀ (s : ArticleStore) (title link userId : String) (now : Int),
        scoreOk (postArticle s title link userId now).2 (postArticle s title link userId now).1 = true)
  ∧ (∀ (s : ArticleStore) (aid userId : String),
        scoreOk s aid = true → scoreOk (postVote s aid userId) aid = true) := by
  constructor
  · intro s title link userId now
    simp [postArticle, scoreOk, alookup_aupd]
  · intro s aid userId hOk
    unfold scoreOk at hOk
    rcases hh : alookup s.hashes aid with _ | a
    · rw [hh] at hOk; simp at hOk
    rcases hs : alookup s.scoreZ aid with _ | sc
    · rw [hh, hs] at hOk; simp at hOk
    rw [hh, hs] at hOk
    simp only [beq_iff_eq] at hOk
    unfold scoreOk postVote
    simp only [alookup_hIncrVotes, alookup_aupd, hh, hs]
    simp only [Option.map, Option.getD, beq_iff_eq, SCORE_PER_VOTE] at *
    omega

/-- Closed instance of C3: create an article at timestamp 1000 and apply one
vote; the invariant check evaluates to true. -/
theorem c3_score_invariant_witness :
    scoreOk (postVote (postArticle emptyStore "t" "l" "u1" 1000).2 "1" "u2") "1" = true :=
  c3_score_invariant.2 (postArticle emptyStore "t" "l" "u1" 1000).2 "1" "u2" (by decide)

/-- Claim C4 is false of the code: postVote discards the SADD result and
increments unconditionally, so a second vote by the same user on the same
article is applied, not rejected.  Concretely, after posting article 1 and
voting twice as user u2, the dedup set holds u2 once, yet the stored votes
field is 2, where the claim (and the repository test named "should not allow
the same user to vote twice") requires 1. -/
theorem c4_double_vote_double_count :
    (alookup (postVote (postVote (postArticle emptyStore "t" "l" "u1" 1000).2 "1" "u2") "1" "u2").hashes "1").map
      (fun h => h.votes) = some (some 2)
  ∧ alookup (postVote (postVote (postArticle emptyStore "t" "l" "u1" 1000).2 "1" "u2") "1" "u2").voted "1"
      = some ["u2"]
  ∧ alookup (postVote (postVote (postArticle emptyStore "t" "l" "u1" 1000).2 "1" "u2") "1" "u2").scoreZ "1"
      = some 1864 := by
  refine ⟨by decide, by decide, by decide⟩

/-- Claim C5 is false of the code: postVote reads no clock and never compares
anything against VOTING_WINDOW (the constant is exported but unused), so a
vote submitted at or after the window closes is applied exactly like any
other vote.  Concretely, for an article created at timestamp 1000, a vote by
u2 (at any submission instant, including 1005 and later, since postVote is
independent of time) raises the votes field from absent to 1 and the score
from 1000 to 1432, where the claim requires a WindowClosed rejection with no
state change. -/
theorem c5_vote_applied_regardless_of_window :
    alookup (postVote (postArticle emptyStore "t" "l" "u1" 1000).2 "1" "u2").scoreZ "1" = some 1432
  ∧ (alookup (postVote (postArticle emptyStore "t" "l" "u1" 1000).2 "1" "u2").hashes "1").map
      (fun h => h.votes) = some (some 1) := by
  refine ⟨by decide, by decide⟩

/-- Claim C8 is half right and half false of the code: updateArticleGroups is
an unimplemented placeholder (the body is the comment "Will be implemented by
user" and a return of false), so repeating a call trivially yields the same
membership state as calling it once, but every call returns false, not a
success result, and adds or removes nothing: the repository tests expect true
and changed membership.  The general equation shows the stub behaviour; the
first conjunct evaluates it on the input of the repository test. -/
theorem c8_update_groups_stub_returns_false :
    updateArticleGroups emptyStore "1" ["technology", "programming", "news"] [] = (false, emptyStore)
  ∧ ∀ (s : ArticleStore) (aid : String) (addG remG : List String),
      updateArticleGroups s aid addG remG = (false, s) :=
  ⟨rfl, fun _ _ _ _ => rfl⟩

/-- Claim C9: getTopArticles never reads its count or group arguments, so for
a fixed store its result is the same for all counts and all groups (absent
included), namely the decode of the members at descending ranks 0 through 100
of the global article:score index. -/
theorem c9_top_articles_independent_of_args :
    ∀ (s : ArticleStore) (c₁ c₂ : Nat) (g₁ g₂ : Option String),
      getTopArticles s c₁ g₁ = getTopArticles s c₂ g₂
    ∧ getTopArticles s c₁ g₁ = topArticlesRanks0To100 s :=
  fun _ _ _ _ _ => ⟨rfl, rfl⟩

/-- Claim C10: postArticle stores a hash with no votes field (HSET writes id,
title, link, userId, timestamp only), and the articleSchema decoding boundary
maps the absent field to the integer 0. -/
theorem c10_absent_votes_decodes_to_zero :
    ∀ (s : ArticleStore) (title link userId : String) (now : Int),
      ∃ h : ArticleHash,
        alookup (postArticle s title link userId now).2.hashes (postArticle s title link userId now).1
          = some h
        ∧ h.votes = none ∧ (toArticle h).votes = 0 := by
  intro s title link userId now
  refine ⟨⟨toString (s.counter + 1), title, link, userId, now, none⟩, ?_, rfl, rfl⟩
  simp [postArticle, alookup_aupd]

end Articles

end RedisPlayground

